import Mathlib

/-!
Verification development for the pyQCD repository excerpt
(`pyQCD/core/dataset.py`, `pyQCD/core/twopoint.py`,
`pyQCD/utils/codegen/coretags.py`).

The Python code is shallowly embedded: Python floats are modelled as
rationals, fallible Python code returns `Except PyErr`, and the zip
archive backing a `DataSet` is modelled as the list of stored values.
The code is Python 2, so `/` on two Python ints means floor division
while `/` involving a float is exact division; `num_data / binsize`
in the source is therefore natural-number division here.
-/

/-- Kinds of Python exceptions raised by the embedded code, together with
the (uninterpolated) message text used at the raise site. `keyError` is
what `zipfile.ZipFile.extract` raises for a missing archive member. -/
inductive PyErr where
  | typeError : String → PyErr
  | valueError : String → PyErr
  | keyError : String → PyErr
  | nameError : String → PyErr
  | indexError : String → PyErr
  | zeroDivisionError : PyErr
deriving DecidableEq, Repr

/-- Python scalar division `x / y` on floats: raises `ZeroDivisionError`
when the divisor is zero, otherwise exact division. -/
def pyDiv (x y : ℚ) : Except PyErr ℚ :=
  if y = 0 then Except.error PyErr.zeroDivisionError else Except.ok (x / y)

namespace DataSet

/-- `DataSet.get_datum(index)` (dataset.py lines 70-87) specialised to a
store of scalar measurements: the archive is modelled as the list of
stored values in index order.  The source extracts the archive member
named from `index` and deserialises it; `zipfile` raises `KeyError` when
no such member exists, which is the only failure mode at this layer
(the source performs no bounds validation of its own). -/
def get_datum (values : List ℚ) (index : ℕ) : Except PyErr ℚ :=
  if h : index < values.length then Except.ok values[index]
  else Except.error (PyErr.keyError "There is no item named in the archive")

/-- The bin count `num_bins` computed identically in `bootstrap`,
`jackknife_datum`, `generate_jackknife_cache` and `jackknife`
(e.g. dataset.py lines 197-199): Python 2 integer division
`num_data / binsize`, plus one when `num_data % binsize > 0`. -/
def num_bins (numData binsize : ℕ) : ℕ :=
  numData / binsize + (if numData % binsize > 0 then 1 else 0)

/-- `DataSet._get_bin(binsize, binnum)` (dataset.py lines 377-391):
starts from the datum at `binsize * binnum`, adds the data up to
`min (binsize * (binnum + 1)) num_data` exclusive, and divides by the
full `binsize` (not by the number of data actually in the bin). -/
def get_bin (values : List ℚ) (binsize binnum : ℕ) : Except PyErr ℚ := do
  let out ← get_datum values (binsize * binnum)
  let first := binsize * binnum + 1
  let last := min (binsize * (binnum + 1)) values.length
  let s ← (List.range' first (last - first)).foldlM
    (fun acc i => do
      let d ← get_datum values i
      pure (acc + d)) out
  pyDiv s binsize

/-- The data actually contained in bin `binnum`: the slice of the store
from `binsize * binnum` (inclusive) to
`min (binsize * (binnum + 1)) num_data` (exclusive) that `_get_bin`
reads.  A final bin is short when `num_data` is not a multiple of
`binsize`. -/
def bin_members (values : List ℚ) (binsize binnum : ℕ) : List ℚ :=
  (values.drop (binsize * binnum)).take
    (min (binsize * (binnum + 1)) values.length - binsize * binnum)

/-- The sum of the members actually contained in bin `binnum`, divided
by the full `binsize`: this is the closed form of `get_bin` proved in
`get_bin_eq` below. -/
def bin_average (values : List ℚ) (binsize binnum : ℕ) : ℚ :=
  (bin_members values binsize binnum).sum / binsize

/-- `DataSet.statistics()` (dataset.py lines 156-177) for a store of
scalar measurements.  The source seeds `data_sum` with `get_datum(0)` and
then loops over `xrange(num_data)`, which includes index 0 again; the
same happens for the squared-deviation accumulator.  The final
elementwise `** 0.5` of the source is left off here because square roots
leave the rationals: the second component returned is the radicand
(the code value of std squared), which determines the code value of std. -/
def statistics (values : List ℚ) : Except PyErr (ℚ × ℚ) := do
  let first ← get_datum values 0
  let dataSum ← (List.range values.length).foldlM
    (fun acc i => do
      let d ← get_datum values i
      pure (acc + d)) first
  let dataMean ← pyDiv dataSum values.length
  let sFirst ← get_datum values 0
  let dataStd ← (List.range values.length).foldlM
    (fun acc i => do
      let d ← get_datum values i
      pure (acc + (d - dataMean) ^ 2)) ((sFirst - dataMean) ^ 2)
  let dataVar ← pyDiv dataStd values.length
  pure (dataMean, dataVar)

/-- `DataSet._mean(data)` (dataset.py lines 503-518) specialised to a
list of scalar measurements: `out = data[0]`, add `data[1:]`, divide by
`len(data)`.  An empty list fails with `IndexError` at `data[0]`. -/
def mean_measurements (data : List ℚ) : Except PyErr ℚ :=
  match data with
  | [] => Except.error (PyErr.indexError "list index out of range")
  | x :: rest => pyDiv (rest.foldl (· + ·) x) data.length

/-- `DataSet._std(data)` (dataset.py lines 520-540) specialised to
scalar measurements, with the final square root left off as in
`statistics`: the value returned is the population variance
`(sum of squared deviations) / len(data)` actually computed by the
source before its `_sqrt_measurements` call. -/
def std_measurements (data : List ℚ) : Except PyErr ℚ :=
  match data with
  | [] => Except.error (PyErr.indexError "list index out of range")
  | x :: rest => do
    let mean ← mean_measurements data
    pyDiv (rest.foldl (fun acc d => acc + (d - mean) ^ 2) ((x - mean) ^ 2))
      data.length

/-- `DataSet._std_jackknife(data)` (dataset.py lines 542-563) specialised
to scalar measurements, square root left off as in `std_measurements`.
The divisor is `float(len(data)) / (len(data) - 1)`, whose own evaluation
divides by zero when `len(data) = 1`. -/
def std_jackknife_measurements (data : List ℚ) : Except PyErr ℚ :=
  match data with
  | [] => Except.error (PyErr.indexError "list index out of range")
  | x :: rest => do
    let mean ← mean_measurements data
    let div ← pyDiv data.length (data.length - 1 : ℕ)
    pyDiv (rest.foldl (fun acc d => acc + (d - mean) ^ 2) ((x - mean) ^ 2)) div

/-- `DataSet.jackknife_datum(index, binsize)` (dataset.py lines 218-245):
validates `binsize >= 1` and `index < num_data` (both `ValueError`),
sums the `num_bins` bin averages, subtracts `_get_bin(binsize, index)` --
the bin *numbered* `index` -- and divides by `num_bins - 1`. -/
def jackknife_datum (values : List ℚ) (index : ℕ) (binsize : ℕ) :
    Except PyErr ℚ :=
  if binsize < 1 then
    Except.error (PyErr.valueError "Supplied bin size is less than 1")
  else if values.length ≤ index then
    Except.error (PyErr.valueError
      "Supplied index is greater than the number of data")
  else do
    let nb := num_bins values.length binsize
    let first ← get_bin values binsize 0
    let dataSum ← (List.range' 1 (nb - 1)).foldlM
      (fun acc i => do
        let b ← get_bin values binsize i
        pure (acc + b)) first
    let excl ← get_bin values binsize index
    pyDiv (dataSum - excl) ((nb - 1 : ℕ) : ℚ)

/-- `DataSet.bootstrap(func, num_bootstraps, binsize)` (dataset.py lines
179-216) for scalar measurements.  The pseudo-random draw
`npr.randint(num_bins, size=num_bins).tolist()` of iteration `i` is
abstracted as `rand i`; theorems constrain it by the `randint` contract
(length `num_bins`, entries below `num_bins`).  A measurement function
returning Python `None` is modelled as returning `Option.none` and its
result is skipped, as in the source `if measurement != None` check. -/
def bootstrap (values : List ℚ) (func : ℚ → Option ℚ)
    (numBootstraps binsize : ℕ) (rand : ℕ → List ℕ) :
    Except PyErr (ℚ × ℚ) :=
  if binsize < 1 then
    Except.error (PyErr.valueError "Supplied bin size is less than 1")
  else do
    let out ← (List.range numBootstraps).foldlM
      (fun (acc : List ℚ) i => do
        match rand i with
        | [] => Except.error (PyErr.indexError "list index out of range")
        | b0 :: rest => do
          let first ← get_bin values binsize b0
          let s ← rest.foldlM
            (fun d b => do
              let g ← get_bin values binsize b
              pure (d + g)) first
          let newDatum ← pyDiv s ((b0 :: rest).length : ℕ)
          match func newDatum with
          | some m => pure (acc ++ [m])
          | none => pure acc) []
    let m ← mean_measurements out
    let s ← std_measurements out
    pure (m, s)

/-- `DataSet.generate_jackknife_cache(binsize)` (dataset.py lines
247-279) for scalar measurements: returns the list of
(cache file name, leave-one-bin-out average) pairs the source saves under
`pyQCDcache`, in bin order, instead of performing the filesystem writes.
The `binnum` component of the cache file name is kept as a number. -/
def generate_jackknife_cache (typename : String) (values : List ℚ)
    (binsize : ℕ) : Except PyErr (List ((String × ℕ × ℕ) × ℚ)) :=
  if binsize < 1 then
    Except.error (PyErr.valueError "Supplied bin size is less than 1")
  else do
    let nb := num_bins values.length binsize
    let first ← get_bin values binsize 0
    let dataSum ← (List.range' 1 (nb - 1)).foldlM
      (fun acc i => do
        let b ← get_bin values binsize i
        pure (acc + b)) first
    (List.range nb).foldlM
      (fun acc i => do
        let excl ← get_bin values binsize i
        let newDatum ← pyDiv (dataSum - excl) ((nb - 1 : ℕ) : ℚ)
        pure (acc ++ [((typename, binsize, i), newDatum)])) []

/-- `DataSet.jackknife(func, binsize, args, use_cache=False)` (dataset.py
lines 282-336), the non-cache path, for scalar measurements: one
leave-one-bin-out average per bin, measured by `func`, with `None`
results skipped; returns (mean, jackknife variance), square roots left
off as in `std_measurements`. -/
def jackknife (values : List ℚ) (func : ℚ → Option ℚ) (binsize : ℕ) :
    Except PyErr (ℚ × ℚ) :=
  if binsize < 1 then
    Except.error (PyErr.valueError "Supplied bin size is less than 1")
  else do
    let nb := num_bins values.length binsize
    let first ← get_bin values binsize 0
    let dataSum ← (List.range' 1 (nb - 1)).foldlM
      (fun acc i => do
        let b ← get_bin values binsize i
        pure (acc + b)) first
    let out ← (List.range nb).foldlM
      (fun (acc : List ℚ) i => do
        let excl ← get_bin values binsize i
        let newDatum ← pyDiv (dataSum - excl) ((nb - 1 : ℕ) : ℚ)
        match func newDatum with
        | some m => pure (acc ++ [m])
        | none => pure acc) []
    let m ← mean_measurements out
    let s ← std_jackknife_measurements out
    pure (m, s)

/-- A measurement datum as handed to `add_datum` / `set_datum`: its
Python runtime type is modelled by name, its payload as a scalar. -/
structure PyDatum where
  typeName : String
  value : ℚ
deriving DecidableEq, Repr

/-- An archive member name `"{typename}{index}.npz"` is modelled as the
pair (typename, index); since the typename prefix and the `.npz` suffix
are fixed, the formatted string and this pair determine each other. -/
abbrev MemberName := String × ℕ

/-- The mutable state of a `DataSet`: declared datatype name, stored
count, and the datum members present in the zip archive in write order
(member name paired with the stored scalar).  The initial `type` marker
member and the compression flags play no part in the claims and are not
modelled. -/
structure State where
  datatypeName : String
  numData : ℕ
  archive : List (MemberName × ℚ)
deriving DecidableEq, Repr

/-- `DataSet.add_datum(datum)` (dataset.py lines 49-68): type check, then
append the member named from the current count and increment the count. -/
def add_datum (st : State) (datum : PyDatum) : Except PyErr State :=
  if datum.typeName ≠ st.datatypeName then
    Except.error (PyErr.typeError
      "Supplied data type does not match the required data type")
  else
    Except.ok { st with
      archive := st.archive ++ [((st.datatypeName, st.numData), datum.value)]
      numData := st.numData + 1 }

/-- `DataSet.set_datum(index, datum)` (dataset.py lines 89-114): type
check (`TypeError`), bounds check `index >= num_data` (also raised as a
`TypeError`, message `"Datum ... does not exist"`), then the datum is
saved and written to the archive under the member name built from
`self.num_data` -- the current count -- not from `index`.  The count is
not incremented. -/
def set_datum (st : State) (index : ℕ) (datum : PyDatum) :
    Except PyErr State :=
  if datum.typeName ≠ st.datatypeName then
    Except.error (PyErr.typeError
      "Supplied data type does not match the required data type")
  else if st.numData ≤ index then
    Except.error (PyErr.typeError ("Datum " ++ toString index ++ " does not exist"))
  else
    Except.ok { st with
      archive := st.archive ++ [((st.datatypeName, st.numData), datum.value)] }

end DataSet

/-- A Python value as handled by the elementwise measurement algebra
(dataset.py lines 393-501): numeric scalars (`int`, `float` with
`np.float64` folded into `float`, since their arithmetic agrees),
numeric arrays (`np.ndarray`, one axis sufficing for leaf behaviour),
ordered sequences (`list`, `tuple`), key-to-value mappings (`dict`,
keyed by strings, in insertion order), and the non-numeric leaves the
claims quantify over: `None` and an arbitrary other object represented
by `strV`. -/
inductive PyVal where
  | intV : ℤ → PyVal
  | floatV : ℚ → PyVal
  | arrV : List ℚ → PyVal
  | listV : List PyVal → PyVal
  | tupleV : List PyVal → PyVal
  | dictV : List (String × PyVal) → PyVal
  | noneV : PyVal
  | strV : String → PyVal

/-- The numeric-leaf test of the measurement algebra: the source checks
`type(a)` against `int`, `float`, `np.float64` and `np.ndarray`. -/
def PyVal.isNumeric : PyVal → Bool
  | .intV _ | .floatV _ | .arrV _ => true
  | _ => false

/-- `type(div) == int` test of `_div_measurements`. -/
def PyVal.isInt : PyVal → Bool
  | .intV _ => true
  | _ => false

/-- `type(div) == float` test of `_div_measurements`. -/
def PyVal.isFloat : PyVal → Bool
  | .floatV _ => true
  | _ => false

namespace DataSet

/-- A numeric binary leaf operation (`a + b`, `a - b`, `a * b`): int with
int stays int, any float makes a float, arrays act elementwise (the
data-model invariant of the spec makes shapes compatible, so the
equal-length `zipWith` covers the cases the algebra meets).  Only applied
under the `isNumeric` guard; the `noneV` fallback is unreachable. -/
def pyNumBinop (fq : ℚ → ℚ → ℚ) (fz : ℤ → ℤ → ℤ) : PyVal → PyVal → PyVal
  | .intV a, .intV b => .intV (fz a b)
  | .intV a, .floatV q => .floatV (fq a q)
  | .floatV p, .intV b => .floatV (fq p b)
  | .floatV p, .floatV q => .floatV (fq p q)
  | .arrV xs, .arrV ys => .arrV (List.zipWith fq xs ys)
  | .arrV xs, .intV b => .arrV (xs.map (fun t => fq t b))
  | .arrV xs, .floatV q => .arrV (xs.map (fun t => fq t q))
  | .intV a, .arrV ys => .arrV (ys.map (fun t => fq a t))
  | .floatV p, .arrV ys => .arrV (ys.map (fun t => fq p t))
  | _, _ => .noneV

mutual

/-- The common shape of `_add_measurements`, `_sub_measurements` and
`_mul_measurements` (dataset.py lines 393-469), which differ only in the
leaf operation: tuples are converted to lists, list with list recurses
over `zip` (truncating to the shorter operand), dict with dict forwards
to dict with list on the values of `b`, dict with list zips the keys of
the dict with the recursion on its values, list with dict swaps the
operands (so for subtraction the roles of `a` and `b` are exchanged, as
in the source), numeric leaves apply `f`, and anything else -- in
particular a non-numeric leaf -- raises the `TypeError` whose message
says "cannot be summed" in all three sources. -/
def binop_measurements (f : PyVal → PyVal → PyVal) :
    PyVal → PyVal → Except PyErr PyVal
  | .listV xs, .listV ys => do pure (.listV (← binopL f xs ys))
  | .listV xs, .tupleV ys => do pure (.listV (← binopL f xs ys))
  | .tupleV xs, .listV ys => do pure (.listV (← binopL f xs ys))
  | .tupleV xs, .tupleV ys => do pure (.listV (← binopL f xs ys))
  | .dictV xs, .dictV ys => do pure (.dictV (← binopDD f xs ys))
  | .dictV xs, .listV ys => do pure (.dictV (← binopD f xs ys))
  | .dictV xs, .tupleV ys => do pure (.dictV (← binopD f xs ys))
  | .listV xs, .dictV ys => do pure (.dictV (← binopD f ys xs))
  | .tupleV xs, .dictV ys => do pure (.dictV (← binopD f ys xs))
  | a, b =>
    if a.isNumeric && b.isNumeric then pure (f a b)
    else Except.error (PyErr.typeError "Supplied types cannot be summed")
termination_by a b => sizeOf a + sizeOf b
decreasing_by all_goals (simp_wf; omega)

/-- List with list: elementwise recursion over `zip(a, b)`. -/
def binopL (f : PyVal → PyVal → PyVal) :
    List PyVal → List PyVal → Except PyErr (List PyVal)
  | x :: xs, y :: ys => do
    let r ← binop_measurements f x y
    let rs ← binopL f xs ys
    pure (r :: rs)
  | _, _ => pure []
termination_by a b => sizeOf a + sizeOf b
decreasing_by all_goals (simp_wf; omega)

/-- Dict with list: `dict(zip(a.keys(), op(a.values(), b)))` unrolled
over the entry list. -/
def binopD (f : PyVal → PyVal → PyVal) :
    List (String × PyVal) → List PyVal → Except PyErr (List (String × PyVal))
  | (k, v) :: xs, y :: ys => do
    let r ← binop_measurements f v y
    let rs ← binopD f xs ys
    pure ((k, r) :: rs)
  | _, _ => pure []
termination_by a b => sizeOf a + sizeOf b
decreasing_by all_goals (simp_wf; omega)

/-- Dict with dict: the source forwards to dict with list on
`b.values()`, i.e. the keys of `a` are zipped with the elementwise
recursion over the two value sequences. -/
def binopDD (f : PyVal → PyVal → PyVal) :
    List (String × PyVal) → List (String × PyVal) →
    Except PyErr (List (String × PyVal))
  | (k, v) :: xs, (_, w) :: ys => do
    let r ← binop_measurements f v w
    let rs ← binopDD f xs ys
    pure ((k, r) :: rs)
  | _, _ => pure []
termination_by a b => sizeOf a + sizeOf b
decreasing_by all_goals (simp_wf; omega)

end

/-- `DataSet._add_measurements` (dataset.py lines 393-417). -/
def add_measurements : PyVal → PyVal → Except PyErr PyVal :=
  binop_measurements (pyNumBinop (· + ·) (· + ·))

/-- `DataSet._sub_measurements` (dataset.py lines 419-443). -/
def sub_measurements : PyVal → PyVal → Except PyErr PyVal :=
  binop_measurements (pyNumBinop (· - ·) (· - ·))

/-- `DataSet._mul_measurements` (dataset.py lines 445-469). -/
def mul_measurements : PyVal → PyVal → Except PyErr PyVal :=
  binop_measurements (pyNumBinop (· * ·) (· * ·))

/-- Division of a numeric leaf by an `int` or `float` divisor, Python 2
semantics: int by int floors (`Int.fdiv`), any float divides exactly;
a zero scalar divisor raises `ZeroDivisionError`.  A numpy array divided
by zero yields infinities with a warning rather than raising; that case
leaves the rationals and no claim exercises it, so the array branch
keeps the Lean convention for division by zero. -/
def pyLeafDiv : PyVal → PyVal → Except PyErr PyVal
  | .intV a, .intV d =>
    if d = 0 then Except.error PyErr.zeroDivisionError
    else pure (.intV (Int.fdiv a d))
  | .intV a, .floatV q =>
    if q = 0 then Except.error PyErr.zeroDivisionError
    else pure (.floatV (a / q))
  | .floatV p, .intV d =>
    if d = 0 then Except.error PyErr.zeroDivisionError
    else pure (.floatV (p / (d : ℚ)))
  | .floatV p, .floatV q =>
    if q = 0 then Except.error PyErr.zeroDivisionError
    else pure (.floatV (p / q))
  | .arrV xs, .intV d => pure (.arrV (xs.map (fun t => t / (d : ℚ))))
  | .arrV xs, .floatV q => pure (.arrV (xs.map (fun t => t / q)))
  | _, _ => pure .noneV

mutual

/-- `DataSet._div_measurements(a, div)` (dataset.py lines 471-487):
checks that the divisor is an `int` or `float` (`TypeError` otherwise),
recurses over lists, tuples and dict values, divides numeric leaves --
and, for any other `a`, falls off the end of the function, returning
Python `None` rather than raising. -/
def div_measurements (a div : PyVal) : Except PyErr PyVal :=
  if ¬(div.isFloat || div.isInt) then
    Except.error (PyErr.typeError "Unsupported divisor")
  else
    match a with
    | .listV xs => do pure (.listV (← divL xs div))
    | .tupleV xs => do pure (.listV (← divL xs div))
    | .dictV xs => do pure (.dictV (← divD xs div))
    | .intV x => pyLeafDiv (.intV x) div
    | .floatV q => pyLeafDiv (.floatV q) div
    | .arrV xs => pyLeafDiv (.arrV xs) div
    | _ => pure .noneV

/-- List or tuple case of `_div_measurements`:
`[_div_measurements(x, div) for x in a]`. -/
def divL (l : List PyVal) (div : PyVal) : Except PyErr (List PyVal) :=
  match l with
  | x :: xs => do
    let r ← div_measurements x div
    let rs ← divL xs div
    pure (r :: rs)
  | [] => pure []

/-- Dict case of `_div_measurements`:
`dict(zip(a.keys(), _div_measurements(a.values(), div)))` unrolled over
the entry list. -/
def divD (l : List (String × PyVal)) (div : PyVal) :
    Except PyErr (List (String × PyVal)) :=
  match l with
  | (k, v) :: xs => do
    let r ← div_measurements v div
    let rs ← divD xs div
    pure ((k, r) :: rs)
  | [] => pure []

end

mutual

/-- `DataSet._sqrt_measurements(a)` (dataset.py lines 489-501): recurses
over lists, tuples and dict values and applies `np.sqrt` to numeric
leaves; real square roots leave the rationals, so `np.sqrt` on scalars
is abstracted as the parameter `sqrtFn`.  For any other `a` the source
falls off the end of the function, returning Python `None` rather than
raising -- note the function raises nothing at all. -/
def sqrt_measurements (sqrtFn : ℚ → ℚ) : PyVal → PyVal
  | .listV xs => .listV (sqrtL sqrtFn xs)
  | .tupleV xs => .listV (sqrtL sqrtFn xs)
  | .dictV xs => .dictV (sqrtD sqrtFn xs)
  | .intV x => .floatV (sqrtFn x)
  | .floatV q => .floatV (sqrtFn q)
  | .arrV xs => .arrV (xs.map sqrtFn)
  | _ => .noneV

/-- List or tuple case of `_sqrt_measurements`. -/
def sqrtL (sqrtFn : ℚ → ℚ) : List PyVal → List PyVal
  | x :: xs => sqrt_measurements sqrtFn x :: sqrtL sqrtFn xs
  | [] => []

/-- Dict case of `_sqrt_measurements`. -/
def sqrtD (sqrtFn : ℚ → ℚ) : List (String × PyVal) → List (String × PyVal)
  | (k, v) :: xs => (k, sqrt_measurements sqrtFn v) :: sqrtD sqrtFn xs
  | [] => []

end

end DataSet

namespace TwoPoint

/-- `np.sign` on a real scalar: 1, -1 or 0. -/
def npSign (x : ℚ) : ℤ :=
  if 0 < x then 1 else if x < 0 then -1 else 0

/-- `fold_correlator(correlator)` (twopoint.py lines 15-38) on a real
time series.  `correlator[1]` and `correlator[-1]` are the entries at
indices 1 and `T - 1`; `correlator[:0:-1]` is the reversal of
`correlator[1:]`.  With matching signs the result is `correlator[0]`
followed by the elementwise half-sums, otherwise `correlator[0]`
followed by the elementwise half-differences.  The claims only concern
series of length at least 2, where the `getD` defaults are never read. -/
def fold_correlator (c : List ℚ) : List ℚ :=
  if npSign (c.getD 1 0) = npSign (c.getD (c.length - 1) 0) then
    c.getD 0 0 :: List.zipWith (fun a b => (a + b) / 2) (c.drop 1).reverse (c.drop 1)
  else
    c.getD 0 0 :: List.zipWith (fun a b => (a - b) / 2) (c.drop 1) (c.drop 1).reverse

/-- `_get_all_momenta(p, L, T)` (twopoint.py lines 210-219): brute-force
scan of `range(-L // 2, L // 2)` in each component (with Python floor
division, this is the `L` integers from `-((L + 1) / 2)` up), keeping
the momenta of the same squared magnitude as `p` and reducing each
component modulo `L` (`Int.emod` agrees with the Python `%` on a
positive modulus).  `T` is accepted and unused, as in the source. -/
def get_all_momenta (p : ℤ × ℤ × ℤ) (L T : ℕ) : List (ℤ × ℤ × ℤ) :=
  let p2 := p.1 ^ 2 + p.2.1 ^ 2 + p.2.2 ^ 2
  let rng : List ℤ := (List.range L).map (fun j => (j : ℤ) - ((L + 1) / 2 : ℕ))
  ((rng.flatMap fun px => rng.flatMap fun py => rng.map fun pz => (px, py, pz))
    |>.filter fun q => q.1 ^ 2 + q.2.1 ^ 2 + q.2.2 ^ 2 == p2)
    |>.map fun q => (q.1 % (L : ℤ), q.2.1 % (L : ℤ), q.2.2 % (L : ℤ))

/-- `np.mean(xs, axis=0)` on a list of equal-length time series:
elementwise arithmetic mean. -/
def np_mean_axis0 (ls : List (List ℚ)) : List ℚ :=
  match ls with
  | [] => []
  | l :: _ =>
    (List.range l.length).map fun t =>
      ((ls.map fun v => v.getD t 0).sum) / ls.length

/-- Line 199 of twopoint.py reads `self.L`, but `compute_meson_corr` is
a module-level function with no `self` in scope (the line is a leftover
from a method), so evaluating it raises `NameError` before anything else
in that branch happens. -/
def selfL : Except PyErr ℕ :=
  Except.error (PyErr.nameError "global name self is not defined")

/-- Result of `compute_meson_corr`: a single correlator array when
exactly one momentum key was produced, else the momentum-keyed mapping. -/
inductive CorrResult where
  | single : List ℚ → CorrResult
  | multi : List ((ℤ × ℤ × ℤ) × List ℚ) → CorrResult
deriving DecidableEq, Repr

/-- `compute_meson_corr` (twopoint.py lines 109-208), from the point
where the momentum-space correlator exists.  The propagator contraction
and the spatial FFT (lines 171-178) are linear algebra delegated to the
external numpy boundary and are abstracted as `momCorr`, the map from a
spatial lattice momentum to its time series; `momenta` is taken after
the line-168 normalisation to a list.  For each momentum: with
`average_momenta` set, the equivalent momenta are enumerated and their
correlators averaged; otherwise the source evaluates `self.L` and dies
with `NameError` (see `selfL`).  The result dict, keyed by momentum
tuple in insertion order, collapses to the single array when it has
exactly one key. -/
def compute_meson_corr (momCorr : ℤ → ℤ → ℤ → List ℚ) (L T : ℕ)
    (momenta : List (ℤ × ℤ × ℤ)) (averageMomenta : Bool) :
    Except PyErr CorrResult := do
  let out ← momenta.foldlM
    (fun (acc : List ((ℤ × ℤ × ℤ) × List ℚ)) momentum => do
      if averageMomenta then
        let equiv := get_all_momenta momentum L T
        let corr := np_mean_axis0 (equiv.map fun q => momCorr q.1 q.2.1 q.2.2)
        pure (acc ++ [(momentum, corr)])
      else do
        let l ← selfL
        let m : ℤ × ℤ × ℤ :=
          (momentum.1 % (l : ℤ), momentum.2.1 % (l : ℤ), momentum.2.2 % (l : ℤ))
        pure (acc ++ [(m, momCorr m.1 m.2.1 m.2.2)])) []
  match out with
  | [onlyEntry] => pure (.single onlyEntry.2)
  | _ => pure (.multi out)

end TwoPoint

namespace CoreTags

/-- `allocation_code(typedef)` (coretags.py lines 5-14): renders the
`core/allocation.pyx` template on the descriptor.  The template engine
is an external boundary, abstracted as `render`. -/
def allocation_code {α : Type} (render : α → String) (typedef : α) : String :=
  render typedef

/-- `setget_code(typedef)` (coretags.py lines 17-25): imports the shared
template environment (a binding that is never used) and returns the
empty string for every descriptor. -/
def setget_code {α : Type} (typedef : α) : String := ""

/-- `buffer_code(typedef)` (coretags.py lines 28-36): placeholder
returning the empty string for every descriptor. -/
def buffer_code {α : Type} (typedef : α) : String := ""

/-- `static_func_code(typedef)` (coretags.py lines 39-47): placeholder
returning the empty string for every descriptor. -/
def static_func_code {α : Type} (typedef : α) : String := ""

end CoreTags

/-! Helper lemmas about the `Except` plumbing and about list slices. -/

theorem pyBindOk {α β : Type} (a : α) (f : α → Except PyErr β) :
    (Except.ok a >>= f) = f a := rfl

theorem pyBindError {α β : Type} (e : PyErr) (f : α → Except PyErr β) :
    ((Except.error e : Except PyErr α) >>= f) = Except.error e := rfl

theorem pyPureEq {α : Type} (a : α) : (pure a : Except PyErr α) = Except.ok a := rfl

namespace DataSet

theorem get_datum_ok (values : List ℚ) (i : ℕ) (h : i < values.length) :
    get_datum values i = Except.ok values[i] := by
  simp [get_datum, h]

theorem get_datum_err (values : List ℚ) (i : ℕ) (h : values.length ≤ i) :
    get_datum values i =
      Except.error (PyErr.keyError "There is no item named in the archive") := by
  rw [get_datum, dif_neg (by omega)]

/-- A left fold that reads the data at `start`, ..., `start + len - 1`
and accumulates `h` of each read succeeds and sums. -/
theorem foldlM_read_sum (values : List ℚ) (h : ℚ → ℚ) :
    ∀ (len start : ℕ) (init : ℚ), start + len ≤ values.length →
    (List.range' start len).foldlM
      (fun acc i => do
        let d ← get_datum values i
        pure (acc + h d)) init
      = Except.ok (init + (((values.drop start).take len).map h).sum) := by
  intro len
  induction len with
  | zero => intro start init _; simp [List.foldlM, pyPureEq]
  | succ n ih =>
    intro start init hle
    have hs : start < values.length := by omega
    rw [List.range'_succ]
    show (get_datum values start >>= fun d =>
        pure (init + h d)) >>= _ = _
    rw [get_datum_ok values start hs, pyBindOk, pyPureEq, pyBindOk,
      ih (start + 1) (init + h values[start]) (by omega)]
    rw [List.drop_eq_getElem_cons hs, List.take_succ_cons]
    simp [add_assoc]

end DataSet

namespace DataSet

/-- `_get_bin` succeeds on a bin whose first datum is in range, and its
value is `bin_average`: the sum of the members present in the bin,
divided by the full `binsize`. -/
theorem get_bin_eq (values : List ℚ) (b k : ℕ) (hb : b ≠ 0)
    (hk : b * k < values.length) :
    get_bin values b k = Except.ok (bin_average values b k) := by
  unfold get_bin
  simp only [get_datum_ok values _ hk, pyBindOk]
  have hle : b * k + 1 + (min (b * (k + 1)) values.length - (b * k + 1))
      ≤ values.length := by omega
  rw [foldlM_read_sum values (fun x => x) _ _ _ hle, pyBindOk]
  have hmin : b * k + 1 ≤ min (b * (k + 1)) values.length := by
    have : b * k + b ≤ b * (k + 1) := by ring_nf; omega
    omega
  unfold pyDiv bin_average bin_members
  have hcast : (b : ℚ) ≠ 0 := Nat.cast_ne_zero.mpr hb
  rw [if_neg hcast]
  congr 1
  rw [List.drop_eq_getElem_cons hk]
  have harith : min (b * (k + 1)) values.length - b * k
      = (min (b * (k + 1)) values.length - (b * k + 1)) + 1 := by omega
  rw [harith, List.take_succ_cons]
  simp

/-- `_get_bin` fails with the archive `KeyError` when the first datum of
the bin is out of range. -/
theorem get_bin_err (values : List ℚ) (b k : ℕ)
    (hk : values.length ≤ b * k) :
    get_bin values b k =
      Except.error (PyErr.keyError "There is no item named in the archive") := by
  unfold get_bin
  rw [get_datum_err values _ hk, pyBindError]

/-- A left fold accumulating `_get_bin` over a list of in-range bin
numbers succeeds and sums the bin averages. -/
theorem foldlM_bins_sum (values : List ℚ) (b : ℕ) (hb : b ≠ 0) :
    ∀ (l : List ℕ) (init : ℚ), (∀ i ∈ l, b * i < values.length) →
    l.foldlM
      (fun acc i => do
        let g ← get_bin values b i
        pure (acc + g)) init
      = Except.ok (init + (l.map (bin_average values b)).sum) := by
  intro l
  induction l with
  | nil => intro init _; simp [List.foldlM, pyPureEq]
  | cons x xs ih =>
    intro init hmem
    show (get_bin values b x >>= fun g => pure (init + g)) >>= _ = _
    rw [get_bin_eq values b x hb (hmem x (by simp)), pyBindOk, pyPureEq, pyBindOk,
      ih _ (fun i hi => hmem i (by simp [hi]))]
    simp [add_assoc]

/-- Every bin numbered below `num_bins` starts in range. -/
theorem bin_start_lt (n b i : ℕ) (hb : 0 < b) (hi : i < num_bins n b) :
    b * i < n := by
  unfold num_bins at hi
  have hdm := Nat.div_add_mod n b
  have hmlt : n % b < b := Nat.mod_lt _ hb
  by_cases hr : n % b = 0
  · rw [hr, if_neg (by omega)] at hi
    have h1 : i + 1 ≤ n / b := by omega
    have h2 : b * (i + 1) ≤ b * (n / b) := Nat.mul_le_mul_left b h1
    have h3 : b * (i + 1) = b * i + b := by ring
    omega
  · rw [if_pos (by omega)] at hi
    have h1 : i ≤ n / b := by omega
    have h2 : b * i ≤ b * (n / b) := Nat.mul_le_mul_left b h1
    omega

/-- Every bin numbered at or above `num_bins` starts out of range. -/
theorem bin_start_ge (n b i : ℕ) (hb : 0 < b) (hi : num_bins n b ≤ i) :
    n ≤ b * i := by
  unfold num_bins at hi
  have hdm := Nat.div_add_mod n b
  have hmlt : n % b < b := Nat.mod_lt _ hb
  by_cases hr : n % b = 0
  · rw [hr, if_neg (by omega)] at hi
    have h2 : b * (n / b) ≤ b * i := Nat.mul_le_mul_left b hi
    omega
  · rw [if_pos (by omega)] at hi
    have h2 : b * (n / b + 1) ≤ b * i := Nat.mul_le_mul_left b hi
    have h3 : b * (n / b + 1) = b * (n / b) + b := by ring
    omega

/-- A nonempty store has at least one bin. -/
theorem num_bins_pos (n b : ℕ) (hb : 0 < b) (hn : 0 < n) :
    0 < num_bins n b := by
  by_contra hc
  have := bin_start_ge n b 0 hb (by omega)
  omega

end DataSet

/-- Claim C1 (code bug): for the two-element scalar store holding 1 and 3
the source returns mean `5/2` with variance `19/8` (so std
`sqrt(19/8)`), because `data_sum` is seeded with datum 0 and the loop
then adds datum 0 again, and the squared-deviation accumulator repeats
the same double count; the claimed population mean is `2` with variance
`1`.  The last two conjuncts separate the code value from the value the
claim requires. -/
theorem statistics_double_counts_first_datum :
    DataSet.statistics [1, 3] = Except.ok (5 / 2, 19 / 8) ∧
    (5 / 2 : ℚ) ≠ (1 + 3) / 2 ∧
    (19 / 8 : ℚ) ≠ ((1 - (1 + 3) / 2) ^ 2 + (3 - (1 + 3) / 2) ^ 2) / 2 := by
  refine ⟨?_, by norm_num, by norm_num⟩
  simp [DataSet.statistics, DataSet.get_datum, pyDiv, List.foldlM,
    Bind.bind, Except.bind, Pure.pure, Except.pure]
  norm_num

/-- Claim C4 (code bug): on the store holding 1 and 3, the two
single-element jackknife data are 3 and 1, whose average (computed by
`_mean` exactly as the claim prescribes) is the true ensemble mean 2;
but `statistics()[0]` is `5/2` because of the double count recorded in
`statistics_double_counts_first_datum`, so the claimed identity fails
by `1/2`, far beyond floating tolerance. -/
theorem jackknife_average_ne_statistics_mean :
    DataSet.jackknife_datum [1, 3] 0 1 = Except.ok 3 ∧
    DataSet.jackknife_datum [1, 3] 1 1 = Except.ok 1 ∧
    DataSet.mean_measurements [3, 1] = Except.ok 2 ∧
    DataSet.statistics [1, 3] = Except.ok (5 / 2, 19 / 8) ∧
    (2 : ℚ) ≠ 5 / 2 := by
  refine ⟨?_, ?_, ?_, ?_, by norm_num⟩ <;>
    simp [DataSet.jackknife_datum, DataSet.get_bin, DataSet.get_datum,
      DataSet.num_bins, pyDiv, DataSet.mean_measurements,
      DataSet.statistics, List.foldlM, List.range',
      Bind.bind, Except.bind, Pure.pure, Except.pure] <;>
    norm_num

/-- Counterexample to claim C9: `_div_measurements` applied to a
non-numeric leaf (here an arbitrary non-numeric object, with a valid
`int` divisor) returns normally -- with Python `None` -- instead of
failing with the `UnsupportedType` error the claim requires for every
elementwise operation. -/
theorem div_measurements_nonnumeric_leaf_returns :
    DataSet.div_measurements (.strV "spam") (.intV 2) =
      Except.ok PyVal.noneV := rfl

/-- Claim C9 (amended): addition, subtraction and multiplication do fail
with the `UnsupportedType` error (`TypeError`) on a non-numeric leaf,
but scalar division and elementwise square root return the absent value
`None` from such a leaf instead of raising -- for any non-numeric leaf
(`strV` stands for an arbitrary other object; `noneV` is Python `None`)
and any legal divisor. -/
theorem measurement_algebra_nonnumeric_leaves (s t : String) (d : ℤ)
    (q : ℚ) (sqrtFn : ℚ → ℚ) :
    DataSet.add_measurements (.strV s) (.strV t) =
      Except.error (PyErr.typeError "Supplied types cannot be summed") ∧
    DataSet.sub_measurements (.strV s) (.strV t) =
      Except.error (PyErr.typeError "Supplied types cannot be summed") ∧
    DataSet.mul_measurements (.strV s) (.strV t) =
      Except.error (PyErr.typeError "Supplied types cannot be summed") ∧
    DataSet.div_measurements (.strV s) (.intV d) = Except.ok PyVal.noneV ∧
    DataSet.div_measurements (.strV s) (.floatV q) = Except.ok PyVal.noneV ∧
    DataSet.div_measurements .noneV (.intV d) = Except.ok PyVal.noneV ∧
    DataSet.sqrt_measurements sqrtFn (.strV s) = PyVal.noneV ∧
    DataSet.sqrt_measurements sqrtFn .noneV = PyVal.noneV := by
  refine ⟨?_, ?_, ?_, rfl, rfl, rfl, rfl, rfl⟩ <;>
    simp [DataSet.add_measurements, DataSet.sub_measurements,
      DataSet.mul_measurements, DataSet.binop_measurements, PyVal.isNumeric]

/-- Claim C2: `set_datum(index, datum)` raises the type-mismatch
`TypeError` when the datum type differs from the declared datatype,
raises the index-validity error (also a `TypeError`, message
`"Datum ... does not exist"`) when `index` is not below the stored
count, and otherwise appends to the archive the member named from the
current count `num_data` -- which is never the member name of `index`
itself, since `index < num_data`. -/
theorem set_datum_spec (st : DataSet.State) (d : DataSet.PyDatum) (i : ℕ) :
    (d.typeName ≠ st.datatypeName → DataSet.set_datum st i d =
      Except.error (PyErr.typeError
        "Supplied data type does not match the required data type")) ∧
    (d.typeName = st.datatypeName → st.numData ≤ i → DataSet.set_datum st i d =
      Except.error (PyErr.typeError
        ("Datum " ++ toString i ++ " does not exist"))) ∧
    (d.typeName = st.datatypeName → i < st.numData →
      DataSet.set_datum st i d = Except.ok { st with
        archive := st.archive ++ [((st.datatypeName, st.numData), d.value)] } ∧
      ((st.datatypeName, st.numData) : DataSet.MemberName) ≠
        (st.datatypeName, i)) := by
  refine ⟨fun h => ?_, fun h hle => ?_, fun h hlt => ⟨?_, ?_⟩⟩
  · rw [DataSet.set_datum, if_pos h]
  · rw [DataSet.set_datum, if_neg (by simp [h]), if_pos hle]
  · rw [DataSet.set_datum, if_neg (by simp [h]), if_neg (by omega)]
  · simp
    omega

/-- Witness for `set_datum_spec`: a store of three floats, overwriting
index 1, writes the member named (float, 3), not the member of index 1. -/
theorem set_datum_spec_witness :
    DataSet.set_datum ⟨"float", 3, []⟩ 1 ⟨"float", 7⟩ =
      Except.ok ⟨"float", 3, [(("float", 3), 7)]⟩ ∧
    (("float", 3) : DataSet.MemberName) ≠ ("float", 1) :=
  (set_datum_spec ⟨"float", 3, []⟩ ⟨"float", 7⟩ 1).2.2 rfl (by decide)

/-- Claim C8: the three placeholder code-generator operations return the
empty string for every type descriptor of every type, and -- being total
Lean functions -- never fail. -/
theorem codegen_placeholders_empty {α : Type} (typedef : α) :
    CoreTags.setget_code typedef = "" ∧
    CoreTags.buffer_code typedef = "" ∧
    CoreTags.static_func_code typedef = "" :=
  ⟨rfl, rfl, rfl⟩

/-- Claim C6 (code bug): `compute_meson_corr` with a single requested
momentum and `average_momenta=False` never returns the correlator at
the reduced momentum: the branch evaluates `self.L` inside a
module-level function, so it fails with `NameError` for every
momentum-space correlator, every lattice extent and every momentum. -/
theorem compute_meson_corr_noavg_nameerror (momCorr : ℤ → ℤ → ℤ → List ℚ)
    (L T : ℕ) (p : ℤ × ℤ × ℤ) :
    TwoPoint.compute_meson_corr momCorr L T [p] false =
      Except.error (PyErr.nameError "global name self is not defined") := by
  simp [TwoPoint.compute_meson_corr, TwoPoint.selfL, List.foldlM,
    Bind.bind, Except.bind]

namespace TwoPoint

/-- Averaging a series with itself pointwise gives the series back. -/
theorem zipWith_half_sum_self (l : List ℚ) :
    List.zipWith (fun a b => (a + b) / 2) l l = l := by
  induction l with
  | nil => rfl
  | cons x xs ih => simp [ih, add_self_div_two]

/-- For a series symmetric about its midpoint, the tail read backwards
(`correlator[:0:-1]`) is the tail itself. -/
theorem tail_palindrome (c : List ℚ) (h2 : 2 ≤ c.length)
    (hsym : ∀ t, 1 ≤ t → t < c.length → c.getD t 0 = c.getD (c.length - t) 0) :
    (c.drop 1).reverse = c.drop 1 := by
  apply List.ext_getElem
  · simp
  · intro j hj hj'
    simp only [List.length_reverse, List.length_drop] at hj hj'
    rw [List.getElem_reverse]
    simp only [List.getElem_drop, List.length_drop]
    have hlt : 1 + j < c.length := by omega
    have h2' : c.length - (1 + j) < c.length := by omega
    have hs := hsym (1 + j) (by omega) hlt
    rw [List.getD_eq_getElem c 0 hlt, List.getD_eq_getElem c 0 h2'] at hs
    convert hs.symm using 2
    omega

end TwoPoint

/-- Claim C7: `fold_correlator` is the identity on a real series of
length at least 2 that is symmetric about its midpoint
(`C[t] = C[T - t]` for `1 <= t <= T - 1`): the symmetry makes the signs
at indices 1 and `T - 1` match, the cosh-like branch averages each
`C[t]` with the equal `C[T - t]`, and the `t = 0` sample is kept, so the
output is the input series, same length included. -/
theorem fold_correlator_symmetric (c : List ℚ) (h2 : 2 ≤ c.length)
    (hsym : ∀ t, 1 ≤ t → t < c.length → c.getD t 0 = c.getD (c.length - t) 0) :
    TwoPoint.fold_correlator c = c := by
  have h1 : c.getD 1 0 = c.getD (c.length - 1) 0 := hsym 1 le_rfl (by omega)
  unfold TwoPoint.fold_correlator
  rw [if_pos (by rw [h1]), TwoPoint.tail_palindrome c h2 hsym,
    TwoPoint.zipWith_half_sum_self]
  cases c with
  | nil => simp at h2
  | cons x xs => simp [List.getD]

/-- Witness for `fold_correlator_symmetric`: the symmetric series
`[1, 2, 3, 2]` of length 4 folds to itself. -/
theorem fold_correlator_symmetric_witness :
    (2 ≤ ([1, 2, 3, 2] : List ℚ).length) ∧
    TwoPoint.fold_correlator [1, 2, 3, 2] = [1, 2, 3, 2] :=
  ⟨by decide, fold_correlator_symmetric [1, 2, 3, 2] (by decide)
    (by
      intro t h1 ht
      have ht4 : t < 4 := by simpa using ht
      interval_cases t <;> rfl)⟩

/-- Claim C10: for any store, any `binsize >= 1` and any bin whose first
datum is in range, the bin average used by `bootstrap`,
`jackknife_datum`, `generate_jackknife_cache` and `jackknife` (all of
which are defined through `get_bin` above) is the sum of the members
actually present in the bin divided by the full `binsize`; consequently
a short final bin (fewer members than `binsize`) with nonzero sum
contributes strictly less in magnitude than the arithmetic mean of its
actual members. -/
theorem get_bin_divides_by_full_binsize (values : List ℚ) (b k : ℕ)
    (hb : 1 ≤ b) (hk : b * k < values.length) :
    DataSet.get_bin values b k =
      Except.ok ((DataSet.bin_members values b k).sum / b) ∧
    ((DataSet.bin_members values b k).length < b →
      (DataSet.bin_members values b k).sum ≠ 0 →
      (DataSet.bin_members values b k).sum / (b : ℚ) ≠
        (DataSet.bin_members values b k).sum /
          ((DataSet.bin_members values b k).length : ℚ)) := by
  constructor
  · have h := DataSet.get_bin_eq values b k (by omega) hk
    simpa [DataSet.bin_average] using h
  · intro hlen hsum hcontra
    have hm : 1 ≤ (DataSet.bin_members values b k).length := by
      have hx : b * k + b ≤ b * (k + 1) := by rw [Nat.mul_succ]
      simp only [DataSet.bin_members, List.length_take, List.length_drop]
      omega
    have hb0 : ((b : ℚ)) ≠ 0 := Nat.cast_ne_zero.mpr (by omega)
    have hm0 : (((DataSet.bin_members values b k).length : ℚ)) ≠ 0 :=
      Nat.cast_ne_zero.mpr (by omega)
    rw [div_eq_div_iff hb0 hm0] at hcontra
    have hcast : ((DataSet.bin_members values b k).length : ℚ) = (b : ℚ) :=
      mul_left_cancel₀ hsum hcontra
    have : (DataSet.bin_members values b k).length = b := by exact_mod_cast hcast
    omega

/-- Witness for `get_bin_divides_by_full_binsize`: three data, bin size
2; the short final bin holds the single value 1 and contributes
`1/2`, not its member mean `1`. -/
theorem get_bin_divides_by_full_binsize_witness :
    (1 ≤ 2) ∧ (2 * 1 < ([1, 1, 1] : List ℚ).length) ∧
    DataSet.get_bin [1, 1, 1] 2 1 =
      Except.ok ((DataSet.bin_members [1, 1, 1] 2 1).sum / 2) ∧
    (DataSet.bin_members [1, 1, 1] 2 1).sum / (2 : ℚ) ≠
      (DataSet.bin_members [1, 1, 1] 2 1).sum /
        ((DataSet.bin_members [1, 1, 1] 2 1).length : ℚ) := by
  have h := get_bin_divides_by_full_binsize [1, 1, 1] 2 1 (by decide) (by decide)
  exact ⟨by decide, by decide, h.1,
    h.2 (by decide) (by norm_num [DataSet.bin_members])⟩

/-- `List.range n` starts with 0 when `n` is positive. -/
theorem range_eq_zero_cons (n : ℕ) (h : 0 < n) :
    List.range n = 0 :: List.range' 1 (n - 1) := by
  rw [List.range_eq_range']
  cases n with
  | zero => omega
  | succ m => rfl

/-- Counterexample to claim C3: on the store `[0, 0, 2, 2]` with
`binsize = 2` the bins are `[0, 0]` (average 0) and `[2, 2]`
(average 2); `jackknife_datum(1, 2)` subtracts the bin *numbered* 1 and
returns 0, while the claim -- remove the bin *containing* index 1,
which is bin 0 -- prescribes `(0 + 2 - 0) / (2 - 1) = 2`. -/
theorem jackknife_datum_bin_number_counterexample :
    DataSet.jackknife_datum [0, 0, 2, 2] 1 2 = Except.ok 0 ∧
    DataSet.bin_average [0, 0, 2, 2] 2 0 = 0 ∧
    DataSet.bin_average [0, 0, 2, 2] 2 1 = 2 ∧
    (0 : ℚ) ≠
      (DataSet.bin_average [0, 0, 2, 2] 2 0 + DataSet.bin_average [0, 0, 2, 2] 2 1
        - DataSet.bin_average [0, 0, 2, 2] 2 0) /
        ((DataSet.num_bins 4 2 : ℚ) - 1) := by
  refine ⟨?_, ?_, ?_, ?_⟩ <;>
    simp [DataSet.jackknife_datum, DataSet.get_bin, DataSet.get_datum,
      DataSet.num_bins, DataSet.bin_average, DataSet.bin_members, pyDiv,
      List.foldlM, List.range', Bind.bind, Except.bind, Pure.pure,
      Except.pure] <;>
    norm_num

/-- Claim C3 (amended): `jackknife_datum(i, b)` raises `InvalidInput`
(`ValueError`) when `b < 1` and when `i >= num_data` (not only when `i`
strictly exceeds it); otherwise, when `i < num_bins` (and at least two
bins exist), it returns the sum of all bin averages minus the bin
*numbered* `i` -- not the bin containing `i` -- divided by
`num_bins - 1`; and when `num_bins <= i < num_data` the read of the
datum at `b * i` is out of range, so the call fails with the archive
`KeyError` instead of returning. -/
theorem jackknife_datum_spec_amended (values : List ℚ) (i b : ℕ) :
    (b = 0 → DataSet.jackknife_datum values i b =
      Except.error (PyErr.valueError "Supplied bin size is less than 1")) ∧
    (1 ≤ b → values.length ≤ i → DataSet.jackknife_datum values i b =
      Except.error (PyErr.valueError
        "Supplied index is greater than the number of data")) ∧
    (1 ≤ b → i < values.length → i < DataSet.num_bins values.length b →
      2 ≤ DataSet.num_bins values.length b →
      DataSet.jackknife_datum values i b = Except.ok
        ((((List.range (DataSet.num_bins values.length b)).map
            (DataSet.bin_average values b)).sum -
          DataSet.bin_average values b i) /
          ((DataSet.num_bins values.length b : ℚ) - 1))) ∧
    (1 ≤ b → i < values.length → DataSet.num_bins values.length b ≤ i →
      DataSet.jackknife_datum values i b =
        Except.error (PyErr.keyError "There is no item named in the archive")) := by
  refine ⟨fun hb => ?_, fun hb hle => ?_, fun hb hi hibins h2nb => ?_,
    fun hb hi hge => ?_⟩
  · rw [DataSet.jackknife_datum, if_pos (by omega)]
  · rw [DataSet.jackknife_datum, if_neg (by omega), if_pos hle]
  · have hmem : ∀ j ∈ List.range' 1 (DataSet.num_bins values.length b - 1),
        b * j < values.length := by
      intro j hj
      rw [List.mem_range'_1] at hj
      exact DataSet.bin_start_lt values.length b j (by omega) (by omega)
    rw [DataSet.jackknife_datum, if_neg (by omega), if_neg (by omega)]
    simp only [DataSet.get_bin_eq values b 0 (by omega) (by omega), pyBindOk]
    rw [DataSet.foldlM_bins_sum values b (by omega) _ _ hmem, pyBindOk]
    simp only [DataSet.get_bin_eq values b i (by omega)
      (DataSet.bin_start_lt values.length b i (by omega) hibins), pyBindOk]
    rw [pyDiv, if_neg (show ((DataSet.num_bins values.length b - 1 : ℕ) : ℚ) ≠ 0
      from Nat.cast_ne_zero.mpr (by omega))]
    congr 1
    rw [range_eq_zero_cons _ (by omega), List.map_cons, List.sum_cons,
      Nat.cast_sub (by omega)]
    norm_num
  · have hmem : ∀ j ∈ List.range' 1 (DataSet.num_bins values.length b - 1),
        b * j < values.length := by
      intro j hj
      rw [List.mem_range'_1] at hj
      exact DataSet.bin_start_lt values.length b j (by omega) (by omega)
    rw [DataSet.jackknife_datum, if_neg (by omega), if_neg (by omega)]
    simp only [DataSet.get_bin_eq values b 0 (by omega) (by omega), pyBindOk]
    rw [DataSet.foldlM_bins_sum values b (by omega) _ _ hmem, pyBindOk]
    rw [DataSet.get_bin_err values b i
      (DataSet.bin_start_ge values.length b i (by omega) hge), pyBindError]

/-- Witness for `jackknife_datum_spec_amended`: the main branch at the
store `[0, 0, 2, 2]`, index 0, bin size 2. -/
theorem jackknife_datum_spec_amended_witness :
    (1 ≤ 2) ∧ ((0 : ℕ) < ([0, 0, 2, 2] : List ℚ).length) ∧
    (0 < DataSet.num_bins ([0, 0, 2, 2] : List ℚ).length 2) ∧
    (2 ≤ DataSet.num_bins ([0, 0, 2, 2] : List ℚ).length 2) ∧
    DataSet.jackknife_datum [0, 0, 2, 2] 0 2 = Except.ok
      ((((List.range (DataSet.num_bins ([0, 0, 2, 2] : List ℚ).length 2)).map
          (DataSet.bin_average [0, 0, 2, 2] 2)).sum -
        DataSet.bin_average [0, 0, 2, 2] 2 0) /
        ((DataSet.num_bins ([0, 0, 2, 2] : List ℚ).length 2 : ℚ) - 1)) :=
  ⟨by decide, by decide, by decide, by decide,
    (jackknife_datum_spec_amended [0, 0, 2, 2] 0 2).2.2.1
      (by decide) (by decide) (by decide) (by decide)⟩

/-- Claim C5: `bootstrap` with `num_bootstraps = 1` and
`binsize = count` on a non-empty store: there is a single bin, the
`randint` contract forces every draw to pick it, that bin average is
the ensemble mean, and a non-absent measurement `func` makes the
returned mean exactly `func` of the ensemble mean (the second component,
the population variance of the one-element result list, is 0),
independently of the random draw. -/
theorem bootstrap_single_bin_deterministic (values : List ℚ)
    (func : ℚ → Option ℚ) (rand : ℕ → List ℕ) (r : ℚ)
    (hn : values ≠ [])
    (hrand : ∀ j, (rand j).length =
        DataSet.num_bins values.length values.length ∧
      ∀ x ∈ rand j, x < DataSet.num_bins values.length values.length)
    (hf : func (values.sum / values.length) = some r) :
    DataSet.bootstrap values func 1 values.length rand = Except.ok (r, 0) := by
  have hn0 : 0 < values.length := List.length_pos.mpr hn
  have hnb : DataSet.num_bins values.length values.length = 1 := by
    unfold DataSet.num_bins
    rw [Nat.div_self hn0, Nat.mod_self]
    simp
  obtain ⟨hlen, hmem⟩ := hrand 0
  rw [hnb] at hlen hmem
  obtain ⟨a, ha⟩ := List.length_eq_one.mp hlen
  have ha0 : a = 0 := by
    have := hmem a (by rw [ha]; simp)
    omega
  subst ha0
  have hbin : DataSet.bin_average values values.length 0 =
      values.sum / values.length := by
    simp [DataSet.bin_average, DataSet.bin_members]
  have hdiv1 : ∀ x : ℚ, pyDiv x ((0 + 1 : ℕ) : ℚ) = Except.ok x := by
    intro x
    simp [pyDiv]
  rw [DataSet.bootstrap, if_neg (by omega)]
  simp only [List.foldlM, ha, DataSet.get_bin_eq values values.length 0
    (by omega) (by simpa using hn0), pyPureEq, pyBindOk, hbin,
    List.length_cons, List.length_nil, hdiv1, hf, List.nil_append,
    DataSet.mean_measurements, DataSet.std_measurements, List.foldl]
  norm_num

/-- Witness for `bootstrap_single_bin_deterministic`: the store
`[1, 3]` with `func` squaring its input; the ensemble mean is 2 and the
bootstrap mean is deterministically 4. -/
theorem bootstrap_single_bin_deterministic_witness :
    ([1, 3] : List ℚ) ≠ [] ∧
    DataSet.bootstrap [1, 3] (fun x => some (x * x)) 1
      ([1, 3] : List ℚ).length (fun _ => [0]) = Except.ok (4, 0) :=
  ⟨by decide, bootstrap_single_bin_deterministic [1, 3]
    (fun x => some (x * x)) (fun _ => [0]) 4 (by decide)
    (by
      intro j
      refine ⟨rfl, ?_⟩
      intro x hx
      simp at hx
      subst hx
      decide)
    (by norm_num)⟩
